import Mathlib

/-!
Shallow embedding of the `kitchen-lights` LED controller
(`src/python/lights/__init__.py` and `src/python/lights/colour.py`).

Python floats are modelled as exact rationals (`ℚ`).  The only float
operation with no exact rational counterpart is `**` (used by
`RGBWColour.hsv_to_rgbw` for the saturation remap and the gamma curve);
the embedding is therefore parametric in a power oracle
`pw : ℚ → ℚ → ℚ` standing for float `**`, and theorems that need a
specific exponent assume only the corresponding algebraic identity
(e.g. `pw x 1 = x`, which holds of real exponentiation).

Wall-clock time (`time.time()`) is passed in explicitly as `now`, and
the random draws consumed by the `Sparkle` routine are supplied as an
explicit list of `(position, random())` pairs.
-/

/-- Model for the module constant `NUM_PIXELS = 300`. -/
def NUM_PIXELS : ℕ := 300

instance : NeZero NUM_PIXELS := ⟨by norm_num [NUM_PIXELS]⟩

/-- Model for `colour.RGBW`: a single RGBW tuple with components 0.0 to 1.0
(conventionally; values are not clamped). -/
structure RGBW where
  r : ℚ
  g : ℚ
  b : ℚ
  w : ℚ
deriving DecidableEq

/-- Coarse model of the Python value universe, used to embed the dynamic
`isinstance(other, RGBW)` test in `RGBW.__add__`. -/
inductive PyVal where
  | rgbw (c : RGBW)
  | intVal (n : ℤ)
  | floatVal (q : ℚ)
  | noneVal
deriving DecidableEq

/-- Componentwise addition of two `RGBW` values (the `isinstance` branch of
`RGBW.__add__`). -/
def RGBW.addRGBW (c o : RGBW) : RGBW :=
  ⟨c.r + o.r, c.g + o.g, c.b + o.b, c.w + o.w⟩

/-- Model for `RGBW.__add__`: componentwise addition when the other operand is
an `RGBW`, otherwise `self` is returned unchanged. -/
def RGBW.add (c : RGBW) (v : PyVal) : RGBW :=
  match v with
  | .rgbw o => c.addRGBW o
  | _ => c

/-- Model for `RGBW.__radd__`: delegates to `__add__`. -/
def RGBW.radd (v : PyVal) (c : RGBW) : RGBW :=
  c.add v

/-- Model for `RGBW.__mul__` (and `__rmul__`): scale every component by a
scalar. -/
def RGBW.mul (c : RGBW) (s : ℚ) : RGBW :=
  ⟨c.r * s, c.g * s, c.b * s, c.w * s⟩

/-- Model for Python's built-in `sum` applied to a non-empty tuple of `RGBW`
values with the default start value `0`: the first step `0 + x₀` goes through
`RGBW.__radd__` and returns `x₀`, every later step is componentwise
addition. -/
def pySum : List RGBW → RGBW
  | [] => ⟨0, 0, 0, 0⟩
  | x :: xs => xs.foldl RGBW.addRGBW x

/-- Model for Python's `int()` truncation toward zero applied to a float. -/
def pyInt (x : ℚ) : ℤ :=
  if 0 ≤ x then ⌊x⌋ else ⌈x⌉

/-- Model for CPython's `colorsys.hsv_to_rgb`, the standard HSV→RGB
conversion used by the colour model. -/
def hsv_to_rgb (h s v : ℚ) : ℚ × ℚ × ℚ :=
  if s = 0 then (v, v, v) else
  let i : ℤ := pyInt (h * 6)
  let f : ℚ := h * 6 - (i : ℚ)
  let p : ℚ := v * (1 - s)
  let q : ℚ := v * (1 - s * f)
  let t : ℚ := v * (1 - s * (1 - f))
  if i % 6 = 0 then (v, t, p)
  else if i % 6 = 1 then (q, v, p)
  else if i % 6 = 2 then (p, v, t)
  else if i % 6 = 3 then (p, q, v)
  else if i % 6 = 4 then (t, p, v)
  else (v, p, q)

/-- Model for `colour.RGBWColour`: the three knobs, in declaration order
(`_gamma`, `_saturation`, `_brightness`). -/
structure RGBWColour where
  gamma : ℚ
  saturation : ℚ
  brightness : ℚ
deriving DecidableEq

/-- The constructor defaults of `RGBWColour.__init__`. -/
def RGBWColour.default : RGBWColour := ⟨2, 2, 1⟩

/-- Model for `RGBWColour.hsv_to_rgbw`, parametric in the float power
oracle `pw` (standing for Python `**`). -/
def hsv_to_rgbw (pw : ℚ → ℚ → ℚ) (cm : RGBWColour) (hue sat value : ℚ)
    (white : Option ℚ) : RGBW :=
  let sat2 : ℚ := if 0 < cm.saturation then pw sat (1 / cm.saturation) else 0
  let rgb := hsv_to_rgb hue 1 (value * cm.brightness * sat2)
  let w : ℚ := match white with
    | none => (1 - sat2) * value * cm.brightness
    | some wv => wv * cm.brightness
  ⟨pw rgb.1 cm.gamma, pw rgb.2.1 cm.gamma, pw rgb.2.2 cm.gamma, w⟩

/-- Model for the mutable state of a `Rainbows` routine. -/
structure RainbowsState where
  offset : ℕ
  white_value : ℚ
  n : ℕ
deriving DecidableEq

namespace Rainbows

/-- `Rainbows.__init__` with its default arguments. -/
def init : RainbowsState := ⟨0, 3 / 10, NUM_PIXELS⟩

/-- The state mutation performed at the start of `Rainbows.get_rgbw_array`:
`self.offset = (self.offset + 1) % self._n`. -/
def step (st : RainbowsState) : RainbowsState :=
  { st with offset := (st.offset + 1) % st.n }

/-- The hue expression of `Rainbows.get_rgbw_array`:
`4 * ((i + self.offset) % self._n) / self._n`. -/
def hue (st : RainbowsState) (i : ℕ) : ℚ :=
  4 * (((i + st.offset) % st.n : ℕ) : ℚ) / (st.n : ℚ)

/-- Model for `Rainbows.get_rgbw_array`: advance the offset, then render every
pixel at full saturation and value with the configured white level. -/
def get_rgbw_array (pw : ℚ → ℚ → ℚ) (cm : RGBWColour) (st : RainbowsState) :
    RainbowsState × List RGBW :=
  let st' := step st
  (st', (List.range st'.n).map fun i =>
    hsv_to_rgbw pw cm (hue st' i) 1 1 (some st'.white_value))

end Rainbows

/-- Model for the mutable state of a `Sparkle` routine.  The Python list
`self._p` of `NUM_PIXELS` `(hue, brightness)` pairs is modelled as a function
on `Fin NUM_PIXELS`. -/
structure SparkleState where
  base_hue : ℚ
  hue_range : ℚ
  p : Fin NUM_PIXELS → ℚ × ℚ
  new_sparks : ℕ
  fade_factor : ℚ

namespace Sparkle

/-- Model for `Sparkle.random_colour`, with the `random()` draw `u` supplied
explicitly: `base_hue + (u * 2.0 - 1.0) * hue_range`. -/
def random_colour (st : SparkleState) (u : ℚ) : ℚ :=
  st.base_hue + (u * 2 - 1) * st.hue_range

/-- Model for `Sparkle.smear_brightness` applied over a pixel array `p`:
keep the pixel's hue, average brightness 1:2:1 with the circular
neighbours, divided by 4. -/
def smear_brightness (p : Fin NUM_PIXELS → ℚ × ℚ) (i : Fin NUM_PIXELS) : ℚ × ℚ :=
  let a := p (i - 1)
  let b := p i
  let c := p (i + 1)
  (b.1, (a.2 + b.2 * 2 + c.2) / 4)

/-- The state mutation of `Sparkle.get_rgbw_array`: fade all brightnesses by
`fade_factor`, smear, then set `new_sparks` randomly drawn positions to a
fresh random hue at brightness 1.0.  `draws` supplies the
`(randint(0, NUM_PIXELS - 1), random())` pairs consumed by the spark loop. -/
def step (st : SparkleState) (draws : List (Fin NUM_PIXELS × ℚ)) : SparkleState :=
  let p1 : Fin NUM_PIXELS → ℚ × ℚ := fun i => ((st.p i).1, (st.p i).2 * st.fade_factor)
  let p2 : Fin NUM_PIXELS → ℚ × ℚ := fun i => smear_brightness p1 i
  let p3 := (draws.take st.new_sparks).foldl
    (fun (p : Fin NUM_PIXELS → ℚ × ℚ) (d : Fin NUM_PIXELS × ℚ) =>
      Function.update p d.1 (random_colour st d.2, 1)) p2
  { st with p := p3 }

/-- Model for `Sparkle.get_rgbw_array`: mutate the state, then render each
pixel from its `(hue, brightness)` pair with `white = 0.4 * brightness`. -/
def get_rgbw_array (pw : ℚ → ℚ → ℚ) (cm : RGBWColour) (st : SparkleState)
    (draws : List (Fin NUM_PIXELS × ℚ)) : SparkleState × List RGBW :=
  let st' := step st draws
  (st', List.ofFn fun i : Fin NUM_PIXELS =>
    hsv_to_rgbw pw cm (st'.p i).1 1 (st'.p i).2 (some (2 / 5 * (st'.p i).2)))

/-- Total brightness across all pixels of a sparkle state. -/
def totalBrightness (st : SparkleState) : ℚ :=
  ∑ i : Fin NUM_PIXELS, (st.p i).2

end Sparkle

/-- The four resolvable routine kinds accepted by `Lights._resolve`: a
constant tuple, a `Rainbows` instance, a `Sparkle` instance, or a bare
`RGBW` value. -/
inductive RoutineVal where
  | tup (xs : List ℚ)
  | rainbows (st : RainbowsState)
  | sparkle (st : SparkleState)
  | rgbw (c : RGBW)

/-- The `ValueError` raised by `Lights._resolve` on a constant tuple whose
arity is neither 3 nor 4; the Python message interpolates the offending
routine, modelled here as a structured error carrying the tuple. -/
inductive ResolveError where
  | badTuple (xs : List ℚ)
deriving DecidableEq

/-- Model for the mutable state of a `Lights` instance.  Keys of the Python
dict `self._routines` (random UUID strings) are modelled as naturals drawn
from a fresh-key counter `nextId`; the dict itself, iterated in insertion
order, is modelled as an association list.  `lastFadeTime` holds
`self._last_fade_time`; wall-clock readings are passed in as arguments. -/
structure LightsState where
  colourModel : RGBWColour
  n : ℕ
  routines : List (ℕ × RoutineVal × ℚ)
  active : Option ℕ
  fadeDuration : ℚ
  lastFadeTime : ℚ
  nextId : ℕ

namespace Lights

/-- Model for `Lights.__init__` in dummy mode (no neopixel driver): empty
live set, no active routine, fade timer primed with the construction-time
clock reading `t0`. -/
def init (cm : RGBWColour) (n : ℕ) (fadeDuration t0 : ℚ) : LightsState :=
  ⟨cm, n, [], none, fadeDuration, t0, 0⟩

/-- Model for the `Lights.routine` setter: generate a fresh identifier, mark
it active, and insert the routine with weight 0. -/
def setRoutine (st : LightsState) (r : RoutineVal) : LightsState :=
  { st with
    active := some st.nextId
    routines := st.routines ++ [(st.nextId, r, 0)]
    nextId := st.nextId + 1 }

/-- Model for the `Lights.weights` property: total of all routine weights,
floored at 1.0. -/
def weights (st : LightsState) : ℚ :=
  max 1 (st.routines.map fun e => e.2.2).sum

/-- Model for `Lights._fade_routines` with the clock reading `now` passed
explicitly: compute the fade increment from the elapsed time, increment the
active routine's weight (capped at 1), decrement all others (floored at 0),
and keep only entries with old weight above the increment or the active
entry. -/
def fadeRoutines (st : LightsState) (now : ℚ) : LightsState :=
  let fade : ℚ := (now - st.lastFadeTime) * (1 / st.fadeDuration)
  { st with
    lastFadeTime := now
    routines :=
      (st.routines.filter fun e => decide (fade < e.2.2) || decide (st.active = some e.1)).map
        fun e =>
          (e.1, e.2.1,
            if st.active = some e.1 then min 1 (e.2.2 + fade) else max 0 (e.2.2 - fade)) }

/-- Model for `Lights._resolve`: evaluate one routine to an array of `RGBW`,
returning the updated routine state alongside (Python mutates the routine
object in place).  A 3-tuple is constant HSV, a 4-tuple constant RGBW, any
other tuple arity raises; `Rainbows`/`Sparkle` render via
`get_rgbw_array`; a bare `RGBW` is broadcast. -/
def resolve (pw : ℚ → ℚ → ℚ) (draws : List (Fin NUM_PIXELS × ℚ)) (cm : RGBWColour)
    (n : ℕ) : RoutineVal → Except ResolveError (RoutineVal × List RGBW)
  | .tup xs =>
    match xs with
    | [hu, sa, va] => .ok (.tup xs, List.replicate n (hsv_to_rgbw pw cm hu sa va none))
    | [r, g, b, w] => .ok (.tup xs, List.replicate n ⟨r, g, b, w⟩)
    | _ => .error (.badTuple xs)
  | .rainbows st =>
    let res := Rainbows.get_rgbw_array pw cm st
    .ok (.rainbows res.1, res.2)
  | .sparkle st =>
    let res := Sparkle.get_rgbw_array pw cm st draws
    .ok (.sparkle res.1, res.2)
  | .rgbw c => .ok (.rgbw c, List.replicate n c)

/-- Resolve every live entry in order (the `weighted_routines` list
comprehension of `Lights.show`), scaling each resolved frame by the entry's
share `d / total` of the total weight.  The first resolution error
propagates, as the comprehension's `ValueError` would.  Returns the updated
routine entries together with the scaled frames; `j` indexes into the
per-entry random-draw supply. -/
def resolveAll (pw : ℚ → ℚ → ℚ) (draws : ℕ → List (Fin NUM_PIXELS × ℚ))
    (cm : RGBWColour) (n : ℕ) (total : ℚ) :
    ℕ → List (ℕ × RoutineVal × ℚ) →
      Except ResolveError (List (ℕ × RoutineVal × ℚ) × List (List RGBW))
  | _, [] => .ok ([], [])
  | j, (rid, r, d) :: rest =>
    match resolve pw (draws j) cm n r with
    | .error e => .error e
    | .ok rf =>
      match resolveAll pw draws cm n total (j + 1) rest with
      | .error e => .error e
      | .ok restRes =>
        .ok ((rid, rf.1, d) :: restRes.1,
          rf.2.map (fun c => c.mul (d / total)) :: restRes.2)

end Lights

/-- The length of Python's `zip(*ls)`: the minimum of the list lengths (0
when there are no lists). -/
def zipMinLen : List (List RGBW) → ℕ
  | [] => 0
  | l :: ls => ls.foldl (fun m l' => min m l'.length) l.length

/-- Model for `zip(*ls)`: the list of columns, truncated at the shortest
row.  Indexing is total via `getD`; the default is never reached below the
zip length. -/
def pyZip (ls : List (List RGBW)) : List (List RGBW) :=
  (List.range (zipMinLen ls)).map fun i => ls.map fun l => l.getD i ⟨0, 0, 0, 0⟩

namespace Lights

/-- Model for `Lights.show` in dummy mode, with the clock reading `now`
passed explicitly.  If the live set is empty nothing happens; otherwise
every live entry is resolved and weighted, the weighted frames are zipped
and summed into the output frame (the hardware write is absent in dummy
mode), and the fade step runs last.  Returns the new state and the frame
that was computed, if any. -/
def show' (pw : ℚ → ℚ → ℚ) (draws : ℕ → List (Fin NUM_PIXELS × ℚ))
    (st : LightsState) (now : ℚ) :
    Except ResolveError (LightsState × Option (List RGBW)) :=
  if st.routines.isEmpty then .ok (st, none)
  else
    match resolveAll pw draws st.colourModel st.n (weights st) 0 st.routines with
    | .error e => .error e
    | .ok res =>
      let colours :=
        if res.2.isEmpty then List.replicate st.n ⟨0, 0, 0, 0⟩
        else (pyZip res.2).map pySum
      .ok (fadeRoutines { st with routines := res.1 } now, some colours)

/-- Iterated fade steps: the fade state after successive renders at the
clock readings in `ts`. -/
def fadeSeq (st : LightsState) (ts : List ℚ) : LightsState :=
  ts.foldl fadeRoutines st

end Lights

/-- A power oracle agreeing with float `**` at every exponent-1 application;
used to instantiate statements whose computations only exercise the oracle
at exponent 1 (or not at all). -/
def powId : ℚ → ℚ → ℚ := fun x _ => x

/-- An empty random-draw supply, for renders that consume no randomness. -/
def noDraws : ℕ → List (Fin NUM_PIXELS × ℚ) := fun _ => []

/-- A compositor state mid-crossfade: entry 0 active at weight 0, entry 1
fading out from weight 1. -/
def fadeDemoState : LightsState :=
  ⟨RGBWColour.default, 1, [(0, .rgbw ⟨1, 0, 0, 0⟩, 0), (1, .rgbw ⟨1, 0, 0, 0⟩, 1)],
    some 0, 1, 0, 2⟩

/-- A `Sparkle` state as produced by `Sparkle.__init__(new_sparks=0)` when
every construction-time `random()` draw is 1/2: every pixel carries hue
0.55 at brightness 0. -/
def sparkleZero : SparkleState :=
  ⟨11 / 20, 1 / 20, fun _ => (11 / 20, 0), 0, 49 / 50⟩

/-- A `Sparkle` state with `new_sparks = 0` whose pixels all carry positive
brightness 1/2. -/
def sparkleHalf : SparkleState :=
  ⟨11 / 20, 1 / 20, fun _ => (11 / 20, 1 / 2), 0, 49 / 50⟩

/-- The frame length each routine kind actually produces when resolved on a
compositor with `n` pixels: constants are broadcast to `n` pixels, a
`Rainbows` instance renders its own configured pixel count, and a `Sparkle`
instance always renders `NUM_PIXELS` pixels. -/
def routineLength (n : ℕ) : RoutineVal → ℕ
  | .tup _ => n
  | .rainbows st => st.n
  | .sparkle _ => NUM_PIXELS
  | .rgbw _ => n

/-- Zipping a single frame and summing each one-element column returns the
frame unchanged. -/
theorem pyZip_map_pySum_singleton (l : List RGBW) : (pyZip [l]).map pySum = l := by
  apply List.ext_getElem
  · simp [pyZip, zipMinLen]
  · intro i h1 h2
    simp only [pyZip, zipMinLen, List.foldl_nil, List.map_map, List.getElem_map,
      List.getElem_range, Function.comp_apply, List.map_cons, List.map_nil, pySum]
    rw [List.getD_eq_getElem]

/-- Resolving a live set whose single entry is a constant `RGBW` value. -/
theorem resolveAll_single_rgbw (pw : ℚ → ℚ → ℚ)
    (draws : ℕ → List (Fin NUM_PIXELS × ℚ)) (cm : RGBWColour) (n : ℕ)
    (total d : ℚ) (j rid : ℕ) (c : RGBW) :
    Lights.resolveAll pw draws cm n total j [(rid, .rgbw c, d)] =
      .ok ([(rid, .rgbw c, d)], [List.replicate n (c.mul (d / total))]) := by
  rw [Lights.resolveAll, Lights.resolve]
  rw [Lights.resolveAll]
  simp [List.map_replicate]

/-- C10: `RGBW.__add__` returns the RGBW operand unchanged when the other
operand is not an `RGBW`, and `__radd__` delegates to `__add__`, so the
same holds with the operands swapped; in particular the integer 0 is a left
and right identity for RGBW addition. -/
theorem rgbw_add_non_rgbw (c : RGBW) (v : PyVal) (h : ∀ o, v ≠ PyVal.rgbw o) :
    c.add v = c ∧ RGBW.radd v c = c := by
  cases v with
  | rgbw o => exact absurd rfl (h o)
  | intVal n => exact ⟨rfl, rfl⟩
  | floatVal q => exact ⟨rfl, rfl⟩
  | noneVal => exact ⟨rfl, rfl⟩

/-- Witness for C10 at the RGBW value (1, 1/2, 0, 1) and the integer 0. -/
theorem rgbw_add_non_rgbw_witness :
    (∀ o, PyVal.intVal 0 ≠ PyVal.rgbw o) ∧
      RGBW.add ⟨1, 1 / 2, 0, 1⟩ (PyVal.intVal 0) = ⟨1, 1 / 2, 0, 1⟩ ∧
      RGBW.radd (PyVal.intVal 0) ⟨1, 1 / 2, 0, 1⟩ = ⟨1, 1 / 2, 0, 1⟩ := by
  have h : ∀ o, PyVal.intVal 0 ≠ PyVal.rgbw o := by intro o hc; cases hc
  exact ⟨h, rgbw_add_non_rgbw ⟨1, 1 / 2, 0, 1⟩ (PyVal.intVal 0) h⟩

/-- C6: after `_fade_routines`, every entry remaining in the live set that is
not the active entry has weight strictly greater than 0 (entries whose
weight would reach 0 are filtered out by the `d > fade` test). -/
theorem fade_keeps_only_positive (st : LightsState) (now : ℚ) (rid : ℕ)
    (r : RoutineVal) (w : ℚ)
    (hmem : (rid, r, w) ∈ (Lights.fadeRoutines st now).routines)
    (hact : st.active ≠ some rid) : 0 < w := by
  simp only [Lights.fadeRoutines, List.mem_map, List.mem_filter,
    Bool.or_eq_true, decide_eq_true_eq, Prod.exists] at hmem
  obtain ⟨id0, r0, d0, ⟨hmem0, hcond⟩, heq⟩ := hmem
  simp only [Prod.mk.injEq] at heq
  obtain ⟨rfl, rfl, hw⟩ := heq
  rw [if_neg hact] at hw
  subst hw
  rcases hcond with hlt | hac
  · exact lt_max_of_lt_right (by linarith)
  · exact absurd hac hact

/-- Witness for C6: a non-active entry surviving a fade step with positive
weight. -/
theorem fade_keeps_only_positive_witness :
    (1, RoutineVal.rgbw ⟨0, 0, 0, 0⟩, 7 / 10) ∈
        (Lights.fadeRoutines
          ⟨RGBWColour.default, 1,
            [(0, .rgbw ⟨0, 0, 0, 0⟩, 1 / 2), (1, .rgbw ⟨0, 0, 0, 0⟩, 9 / 10)],
            some 0, 1, 0, 2⟩ (1 / 5)).routines ∧
      (LightsState.active
          ⟨RGBWColour.default, 1,
            [(0, .rgbw ⟨0, 0, 0, 0⟩, 1 / 2), (1, .rgbw ⟨0, 0, 0, 0⟩, 9 / 10)],
            some 0, 1, 0, 2⟩) ≠ some 1 ∧
      (0 : ℚ) < 7 / 10 := by
  have hmem : (1, RoutineVal.rgbw ⟨0, 0, 0, 0⟩, 7 / 10) ∈
      (Lights.fadeRoutines
        ⟨RGBWColour.default, 1,
          [(0, .rgbw ⟨0, 0, 0, 0⟩, 1 / 2), (1, .rgbw ⟨0, 0, 0, 0⟩, 9 / 10)],
          some 0, 1, 0, 2⟩ (1 / 5)).routines := by
    norm_num [Lights.fadeRoutines]
  have hact : (LightsState.active
      ⟨RGBWColour.default, 1,
        [(0, .rgbw ⟨0, 0, 0, 0⟩, 1 / 2), (1, .rgbw ⟨0, 0, 0, 0⟩, 9 / 10)],
        some 0, 1, 0, 2⟩) ≠ some 1 := by simp
  exact ⟨hmem, hact, fade_keeps_only_positive _ _ _ _ _ hmem hact⟩

/-- C4 counterexample: on an empty live set, `Lights.show` skips entirely —
it returns no frame at all (and leaves the state untouched), rather than
producing a frame of all-zero Channels. -/
theorem show_empty_counterexample :
    Lights.show' powId noDraws (Lights.init RGBWColour.default 300 1 0) 5 =
      .ok (Lights.init RGBWColour.default 300 1 0, none) ∧
      (Except.ok (Lights.init RGBWColour.default 300 1 0, (none : Option (List RGBW))) :
          Except ResolveError (LightsState × Option (List RGBW))) ≠
        .ok (Lights.init RGBWColour.default 300 1 0, some (List.replicate 300 ⟨0, 0, 0, 0⟩)) := by
  refine ⟨rfl, fun h => ?_⟩
  exact Option.noConfusion (congrArg Prod.snd (Except.ok.inj h))

/-- C4 (amended): rendering with an empty live set succeeds, writes nothing,
leaves the state untouched, and computes no frame at all (the all-zero-frame
branch in the source is unreachable). -/
theorem show_empty_skips (pw : ℚ → ℚ → ℚ) (draws : ℕ → List (Fin NUM_PIXELS × ℚ))
    (st : LightsState) (now : ℚ) (h : st.routines = []) :
    Lights.show' pw draws st now = .ok (st, none) := by
  simp [Lights.show', h]

/-- Witness for C4 on a freshly constructed compositor with 300 pixels. -/
theorem show_empty_skips_witness :
    (Lights.init RGBWColour.default 300 1 0).routines = [] ∧
      Lights.show' powId noDraws (Lights.init RGBWColour.default 300 1 0) 7 =
        .ok (Lights.init RGBWColour.default 300 1 0, none) :=
  ⟨rfl, show_empty_skips _ _ _ _ rfl⟩

/-- A constant tuple of arity other than 3 or 4 makes `Lights._resolve`
raise `ValueError`. -/
theorem resolve_bad_tuple (pw : ℚ → ℚ → ℚ) (draws : List (Fin NUM_PIXELS × ℚ))
    (cm : RGBWColour) (n : ℕ) (xs : List ℚ) (h3 : xs.length ≠ 3) (h4 : xs.length ≠ 4) :
    Lights.resolve pw draws cm n (.tup xs) = .error (.badTuple xs) := by
  rcases xs with _ | ⟨a, _ | ⟨b, _ | ⟨c, _ | ⟨d, _ | ⟨e, tl⟩⟩⟩⟩⟩
  · rfl
  · rfl
  · rfl
  · exact absurd rfl h3
  · exact absurd rfl h4
  · rfl

/-- C3 counterexample: selecting the 2-tuple (0, 0) succeeds — the entry is
stored at weight 0 with no error — and the configuration error is instead
raised by the subsequent frame-render call. -/
theorem bad_tuple_counterexample :
    (Lights.setRoutine (Lights.init RGBWColour.default 300 1 0) (.tup [0, 0])).routines =
        [(0, .tup [0, 0], 0)] ∧
      Lights.show' powId noDraws
          (Lights.setRoutine (Lights.init RGBWColour.default 300 1 0) (.tup [0, 0])) 1 =
        .error (.badTuple [0, 0]) := by
  constructor
  · rfl
  · norm_num [Lights.show', Lights.resolveAll, Lights.resolve, Lights.weights,
      Lights.setRoutine, Lights.init]

/-- C3 (amended): supplying a constant tuple with neither 3 nor 4 components
is accepted without error at selection time (the setter stores it at weight
0); the `ValueError` is raised by the next frame-render call, when
`_resolve` first inspects the tuple. -/
theorem bad_tuple_errors_at_render (pw : ℚ → ℚ → ℚ)
    (draws : ℕ → List (Fin NUM_PIXELS × ℚ)) (cm : RGBWColour) (n : ℕ)
    (fd t0 now : ℚ) (xs : List ℚ) (h3 : xs.length ≠ 3) (h4 : xs.length ≠ 4) :
    (Lights.setRoutine (Lights.init cm n fd t0) (.tup xs)).routines =
        [(0, .tup xs, 0)] ∧
      Lights.show' pw draws (Lights.setRoutine (Lights.init cm n fd t0) (.tup xs)) now =
        .error (.badTuple xs) := by
  refine ⟨rfl, ?_⟩
  have hst : Lights.setRoutine (Lights.init cm n fd t0) (.tup xs) =
      ⟨cm, n, [(0, .tup xs, 0)], some 0, fd, t0, 1⟩ := rfl
  rw [hst]
  have hra : Lights.resolveAll pw draws cm n
      (Lights.weights ⟨cm, n, [(0, .tup xs, 0)], some 0, fd, t0, 1⟩) 0
      [(0, .tup xs, 0)] = .error (.badTuple xs) := by
    rw [Lights.resolveAll, resolve_bad_tuple pw (draws 0) cm n xs h3 h4]
  simp only [Lights.show', List.isEmpty_cons, Bool.false_eq_true, if_false]
  rw [hra]

/-- C2 counterexample: with the saturation knob, gamma and brightness all
1.0 (so the power oracle is only applied at exponent 1, where the identity
oracle agrees with float `**`), the R component of hsv_to_rgbw(0, 1/2, 1)
is 1/2, while the standard HSV→RGB conversion of (0, 1/2, 1), scaled by
brightness 1, has R component 1. -/
theorem hsv_not_standard_counterexample :
    (hsv_to_rgbw powId ⟨1, 1, 1⟩ 0 (1 / 2) 1 none).r ≠
      1 * (hsv_to_rgb 0 (1 / 2) 1).1 := by
  norm_num [hsv_to_rgbw, hsv_to_rgb, pyInt, powId]

/-- C2 (amended): with the saturation knob and gamma both 1.0, the R, G, B
components of hsv_to_rgbw(hue, sat, value) equal the standard HSV→RGB
conversion evaluated at full saturation and value sat × value — that is, of
(hue, 1.0, sat × value) — each component scaled by the brightness knob.
This holds for every power oracle that is the identity at exponent 1, as
float `**` is. -/
theorem hsv_gamma_one_standard (pw : ℚ → ℚ → ℚ) (hp : ∀ x, pw x 1 = x)
    (b hue sat value : ℚ) :
    ((hsv_to_rgbw pw ⟨1, 1, b⟩ hue sat value none).r,
      (hsv_to_rgbw pw ⟨1, 1, b⟩ hue sat value none).g,
      (hsv_to_rgbw pw ⟨1, 1, b⟩ hue sat value none).b) =
      (b * (hsv_to_rgb hue 1 (sat * value)).1,
        b * (hsv_to_rgb hue 1 (sat * value)).2.1,
        b * (hsv_to_rgb hue 1 (sat * value)).2.2) := by
  have h0 : (0 : ℚ) < 1 := one_pos
  simp only [hsv_to_rgbw, if_pos h0, one_div, inv_one, hp]
  simp only [hsv_to_rgb, one_ne_zero, if_false]
  split_ifs <;>
    simp only [Prod.mk.injEq] <;>
    refine ⟨by ring, by ring, by ring⟩

/-- Witness for C2 at brightness 1/2 and input (0, 1/2, 1). -/
theorem hsv_gamma_one_standard_witness :
    (∀ x : ℚ, powId x 1 = x) ∧
      ((hsv_to_rgbw powId ⟨1, 1, 1 / 2⟩ 0 (1 / 2) 1 none).r,
        (hsv_to_rgbw powId ⟨1, 1, 1 / 2⟩ 0 (1 / 2) 1 none).g,
        (hsv_to_rgbw powId ⟨1, 1, 1 / 2⟩ 0 (1 / 2) 1 none).b) =
        (1 / 2 * (hsv_to_rgb 0 1 (1 / 2 * 1)).1,
          1 / 2 * (hsv_to_rgb 0 1 (1 / 2 * 1)).2.1,
          1 / 2 * (hsv_to_rgb 0 1 (1 / 2 * 1)).2.2) :=
  ⟨fun _ => rfl, hsv_gamma_one_standard powId (fun _ => rfl) (1 / 2) 0 (1 / 2) 1⟩

/-- The pixel count of a rainbow state never changes across renders. -/
theorem rainbows_iterate_n (st : RainbowsState) (k : ℕ) :
    (Rainbows.step^[k] st).n = st.n := by
  induction k with
  | zero => rfl
  | succ k ih => rw [Function.iterate_succ_apply', Rainbows.step]; exact ih

/-- On a 300-pixel rainbow state with in-range offset, `k` renders advance
the offset to `(offset + k) % 300`. -/
theorem rainbows_iterate_offset (st : RainbowsState) (hn : st.n = 300)
    (ho : st.offset < 300) (k : ℕ) :
    (Rainbows.step^[k] st).offset = (st.offset + k) % 300 := by
  induction k with
  | zero => simpa using (Nat.mod_eq_of_lt ho).symm
  | succ k ih =>
    rw [Function.iterate_succ_apply', Rainbows.step]
    simp only [rainbows_iterate_n st k, hn, ih]
    omega

/-- C7: for the 300-pixel rainbow sweep, 300 renders return the internal
offset to its original value, and the hue assigned to pixel 0 by render
call k equals the hue assigned to pixel k mod 300 by render call 0 (render
call k renders from the state reached after k + 1 offset advances, since
the offset is incremented before the frame is computed). -/
theorem rainbows_cycle (st : RainbowsState) (hn : st.n = 300) (ho : st.offset < 300) :
    (Rainbows.step^[300] st).offset = st.offset ∧
      ∀ k : ℕ, Rainbows.hue (Rainbows.step^[k + 1] st) 0 =
        Rainbows.hue (Rainbows.step^[1] st) (k % 300) := by
  constructor
  · rw [rainbows_iterate_offset st hn ho 300]
    omega
  · intro k
    have h1 := rainbows_iterate_offset st hn ho (k + 1)
    have h2 := rainbows_iterate_n st (k + 1)
    have h3 := rainbows_iterate_offset st hn ho 1
    have h4 := rainbows_iterate_n st 1
    simp only [Rainbows.hue, h1, h2, h3, h4, hn]
    have harg : (0 + (st.offset + (k + 1)) % 300) % 300 =
        (k % 300 + (st.offset + 1) % 300) % 300 := by omega
    rw [harg]

/-- Witness for C7 on the freshly constructed 300-pixel rainbow. -/
theorem rainbows_cycle_witness :
    Rainbows.init.n = 300 ∧ Rainbows.init.offset < 300 ∧
      ((Rainbows.step^[300] Rainbows.init).offset = Rainbows.init.offset ∧
        ∀ k : ℕ, Rainbows.hue (Rainbows.step^[k + 1] Rainbows.init) 0 =
          Rainbows.hue (Rainbows.step^[1] Rainbows.init) (k % 300)) :=
  ⟨rfl, by norm_num [Rainbows.init], rainbows_cycle Rainbows.init rfl (by norm_num [Rainbows.init])⟩

/-- Resolution inside `Lights.show` never changes entry identifiers or
weights: weights change only in the fade step, so the fade-step theorems
below speak for successive full renders with no intervening selection. -/
theorem resolveAll_preserves_ids_weights (pw : ℚ → ℚ → ℚ)
    (draws : ℕ → List (Fin NUM_PIXELS × ℚ)) (cm : RGBWColour) (n : ℕ)
    (total : ℚ) (j : ℕ) (rs rs' : List (ℕ × RoutineVal × ℚ))
    (frames : List (List RGBW))
    (h : Lights.resolveAll pw draws cm n total j rs = .ok (rs', frames)) :
    rs'.map (fun e => (e.1, e.2.2)) = rs.map fun e => (e.1, e.2.2) := by
  induction rs generalizing j rs' frames with
  | nil =>
    rw [Lights.resolveAll] at h
    cases h
    rfl
  | cons e rest ih =>
    obtain ⟨rid, r, d⟩ := e
    rw [Lights.resolveAll] at h
    cases hres : Lights.resolve pw (draws j) cm n r with
    | error err => rw [hres] at h; exact Except.noConfusion h
    | ok rf =>
      rw [hres] at h
      cases hrec : Lights.resolveAll pw draws cm n total (j + 1) rest with
      | error err2 => rw [hrec] at h; exact Except.noConfusion h
      | ok pr =>
        rw [hrec] at h
        cases h
        simp only [List.map_cons]
        rw [ih (j + 1) pr.1 pr.2 hrec]

/-- A fade step carries the active entry to the new live set with weight
`min 1 (d + fade)`. -/
theorem fadeRoutines_active_mem (st : LightsState) (now : ℚ) (a : ℕ)
    (ha : st.active = some a) (r : RoutineVal) (d : ℚ)
    (hmem : (a, r, d) ∈ st.routines) :
    (a, r, min 1 (d + (now - st.lastFadeTime) * (1 / st.fadeDuration))) ∈
      (Lights.fadeRoutines st now).routines := by
  simp only [Lights.fadeRoutines]
  refine List.mem_map.2 ⟨(a, r, d), List.mem_filter.2 ⟨hmem, ?_⟩, ?_⟩
  · simp [ha]
  · simp [ha]

/-- Every non-active entry of the live set after a fade step comes from an
entry of the previous live set, with weight `max 0 (d - fade)`. -/
theorem fadeRoutines_inactive_mem (st : LightsState) (now : ℚ) (rid : ℕ)
    (hact : st.active ≠ some rid) (r : RoutineVal) (d' : ℚ)
    (hmem : (rid, r, d') ∈ (Lights.fadeRoutines st now).routines) :
    ∃ d, (rid, r, d) ∈ st.routines ∧
      d' = max 0 (d - (now - st.lastFadeTime) * (1 / st.fadeDuration)) := by
  simp only [Lights.fadeRoutines, List.mem_map, List.mem_filter, Bool.or_eq_true,
    decide_eq_true_eq, Prod.exists] at hmem
  obtain ⟨id0, r0, d0, ⟨hmem0, hcond⟩, heq⟩ := hmem
  simp only [Prod.mk.injEq] at heq
  obtain ⟨rfl, rfl, hw⟩ := heq
  rw [if_neg hact] at hw
  exact ⟨d0, hmem0, hw.symm⟩

/-- A fade step keeps every live weight inside [0, 1], given nonnegative
elapsed time and a positive fade duration. -/
theorem fadeRoutines_weights_range (st : LightsState) (now : ℚ)
    (hfd : 0 < st.fadeDuration) (hnow : st.lastFadeTime ≤ now)
    (hw : ∀ e ∈ st.routines, 0 ≤ e.2.2 ∧ e.2.2 ≤ 1) :
    ∀ e ∈ (Lights.fadeRoutines st now).routines, 0 ≤ e.2.2 ∧ e.2.2 ≤ 1 := by
  intro e he
  simp only [Lights.fadeRoutines, List.mem_map, List.mem_filter, Bool.or_eq_true,
    decide_eq_true_eq, Prod.exists] at he
  obtain ⟨id0, r0, d0, ⟨hmem0, hcond⟩, heq⟩ := he
  have hfade : 0 ≤ (now - st.lastFadeTime) * (1 / st.fadeDuration) :=
    mul_nonneg (by linarith) (le_of_lt (one_div_pos.mpr hfd))
  obtain ⟨hd0, hd1⟩ := hw _ hmem0
  subst heq
  dsimp only
  by_cases hia : st.active = some id0
  · rw [if_pos hia]
    exact ⟨le_min (by norm_num) (by linarith), min_le_left _ _⟩
  · rw [if_neg hia]
    exact ⟨le_max_left _ _, max_le (by norm_num) (by linarith)⟩

/-- C5: across any sequence of fade steps with non-decreasing clock readings
(non-negative elapsed time per step), positive fade duration, no intervening
selection, and all weights initially in [0, 1]: the active entry's weight
never decreases and stays at most 1.0, and every other entry still alive at
the end has a weight that never increased and stayed at least 0.0. -/
theorem fade_weights_monotone (ts : List ℚ) (st : LightsState) (a : ℕ)
    (ha : st.active = some a) (hfd : 0 < st.fadeDuration)
    (hts : List.Chain (· ≤ ·) st.lastFadeTime ts)
    (hw : ∀ e ∈ st.routines, 0 ≤ e.2.2 ∧ e.2.2 ≤ 1) :
    (∀ r d, (a, r, d) ∈ st.routines →
        ∃ d', (a, r, d') ∈ (Lights.fadeSeq st ts).routines ∧ d ≤ d' ∧ d' ≤ 1) ∧
      ∀ rid r d', st.active ≠ some rid →
        (rid, r, d') ∈ (Lights.fadeSeq st ts).routines →
          ∃ d, (rid, r, d) ∈ st.routines ∧ d' ≤ d ∧ 0 ≤ d' := by
  induction ts generalizing st with
  | nil =>
    exact ⟨fun r d hmem => ⟨d, hmem, le_refl d, (hw _ hmem).2⟩,
      fun rid r d' _ hmem => ⟨d', hmem, le_refl d', (hw _ hmem).1⟩⟩
  | cons t ts ih =>
    obtain ⟨hch1, hch2⟩ := List.chain_cons.mp hts
    have ha1 : (Lights.fadeRoutines st t).active = some a := ha
    have hfd1 : 0 < (Lights.fadeRoutines st t).fadeDuration := hfd
    have hts1 : List.Chain (· ≤ ·) (Lights.fadeRoutines st t).lastFadeTime ts := hch2
    have hfade : 0 ≤ (t - st.lastFadeTime) * (1 / st.fadeDuration) :=
      mul_nonneg (by linarith) (le_of_lt (one_div_pos.mpr hfd))
    have hw1 := fadeRoutines_weights_range st t hfd hch1 hw
    have hseq : Lights.fadeSeq st (t :: ts) = Lights.fadeSeq (Lights.fadeRoutines st t) ts := rfl
    obtain ⟨ih1, ih2⟩ := ih (Lights.fadeRoutines st t) ha1 hfd1 hts1 hw1
    constructor
    · intro r d hmem
      have hstep := fadeRoutines_active_mem st t a ha r d hmem
      obtain ⟨d', hmem', hle, hle1⟩ := ih1 r _ hstep
      refine ⟨d', by rwa [hseq], ?_, hle1⟩
      have hmin : d ≤ min 1 (d + (t - st.lastFadeTime) * (1 / st.fadeDuration)) :=
        le_min (hw _ hmem).2 (by linarith)
      linarith
    · intro rid r d' hact hmem
      rw [hseq] at hmem
      obtain ⟨d1, hmem1, hled, hd0⟩ := ih2 rid r d' hact hmem
      obtain ⟨d, hmem0, hEq⟩ := fadeRoutines_inactive_mem st t rid hact r d1 hmem1
      obtain ⟨hdlo, hdhi⟩ := hw _ hmem0
      have hstepd : d1 ≤ d := by
        rw [hEq]
        exact max_le hdlo (by linarith)
      exact ⟨d, hmem0, by linarith, hd0⟩

/-- Witness for C5 on a two-entry crossfade over the clock readings
1/2 and 1. -/
theorem fade_weights_monotone_witness :
    fadeDemoState.active = some 0 ∧ 0 < fadeDemoState.fadeDuration ∧
      List.Chain (· ≤ ·) fadeDemoState.lastFadeTime [1 / 2, 1] ∧
      (∀ e ∈ fadeDemoState.routines, 0 ≤ e.2.2 ∧ e.2.2 ≤ 1) ∧
      ((∀ r d, (0, r, d) ∈ fadeDemoState.routines →
          ∃ d', (0, r, d') ∈ (Lights.fadeSeq fadeDemoState [1 / 2, 1]).routines ∧
            d ≤ d' ∧ d' ≤ 1) ∧
        ∀ rid r d', fadeDemoState.active ≠ some rid →
          (rid, r, d') ∈ (Lights.fadeSeq fadeDemoState [1 / 2, 1]).routines →
            ∃ d, (rid, r, d) ∈ fadeDemoState.routines ∧ d' ≤ d ∧ 0 ≤ d') := by
  have hch : List.Chain (· ≤ ·) fadeDemoState.lastFadeTime [1 / 2, 1] := by
    simp only [fadeDemoState, List.chain_cons, List.Chain.nil]
    norm_num
  have hwts : ∀ e ∈ fadeDemoState.routines, 0 ≤ e.2.2 ∧ e.2.2 ≤ 1 := by
    simp only [fadeDemoState, List.forall_mem_cons, List.forall_mem_nil]
    norm_num
  exact ⟨rfl, by norm_num [fadeDemoState], hch, hwts,
    fade_weights_monotone [1 / 2, 1] fadeDemoState 0 rfl (by norm_num [fadeDemoState])
      hch hwts⟩

/-- With zero new sparks, one sparkle render multiplies the total brightness
by the fade factor: the fade step scales every brightness by it, and the
1:2:1 circular smear preserves the total. -/
theorem sparkle_total_step (st : SparkleState) (draws : List (Fin NUM_PIXELS × ℚ))
    (h0 : st.new_sparks = 0) :
    Sparkle.totalBrightness (Sparkle.step st draws) =
      st.fade_factor * Sparkle.totalBrightness st := by
  have key : ∀ f : Fin NUM_PIXELS → ℚ, (∑ i, f (i - 1)) = ∑ i, f i := fun f =>
    Fintype.sum_equiv (Equiv.subRight 1) _ _ fun i => rfl
  have key2 : ∀ f : Fin NUM_PIXELS → ℚ, (∑ i, f (i + 1)) = ∑ i, f i := fun f =>
    Fintype.sum_equiv (Equiv.addRight 1) _ _ fun i => rfl
  simp only [Sparkle.step, h0, List.take_zero, List.foldl_nil, Sparkle.totalBrightness,
    Sparkle.smear_brightness]
  have expand : ∀ i : Fin NUM_PIXELS,
      ((st.p (i - 1)).2 * st.fade_factor + (st.p i).2 * st.fade_factor * 2 +
          (st.p (i + 1)).2 * st.fade_factor) / 4 =
        (1 / 4) * (fun j => (st.p j).2 * st.fade_factor) (i - 1) +
          (2 / 4) * (fun j => (st.p j).2 * st.fade_factor) i +
          (1 / 4) * (fun j => (st.p j).2 * st.fade_factor) (i + 1) := fun i => by
    simp only
    ring
  rw [Finset.sum_congr rfl fun i _ => expand i, Finset.sum_add_distrib,
    Finset.sum_add_distrib, ← Finset.mul_sum, ← Finset.mul_sum, ← Finset.mul_sum,
    key fun j => (st.p j).2 * st.fade_factor,
    key2 fun j => (st.p j).2 * st.fade_factor, ← Finset.sum_mul]
  ring

/-- C8 counterexample: on the sparkle state that `__init__(new_sparks=0)`
actually produces — every brightness starts at 0 — the total brightness is
0 both before and after a render, so it does not strictly decrease between
consecutive renders. -/
theorem sparkle_no_strict_decay_counterexample :
    ¬ Sparkle.totalBrightness (Sparkle.step sparkleZero []) <
        Sparkle.totalBrightness sparkleZero := by
  rw [sparkle_total_step sparkleZero [] rfl]
  have hz : Sparkle.totalBrightness sparkleZero = 0 := by
    rw [Sparkle.totalBrightness]
    exact Finset.sum_eq_zero fun i _ => rfl
  rw [hz]
  norm_num

/-- C8 (amended): for a sparkle field with zero new sparks per iteration and
fade factor in [0, 1) (the default is 0.98), one render scales the total
summed brightness by the fade factor, so it strictly decreases whenever it
is positive, and it never becomes negative. -/
theorem sparkle_decay (st : SparkleState) (draws : List (Fin NUM_PIXELS × ℚ))
    (h0 : st.new_sparks = 0) (hff0 : 0 ≤ st.fade_factor) (hff1 : st.fade_factor < 1)
    (hpos : 0 < Sparkle.totalBrightness st) :
    Sparkle.totalBrightness (Sparkle.step st draws) < Sparkle.totalBrightness st ∧
      0 ≤ Sparkle.totalBrightness (Sparkle.step st draws) := by
  rw [sparkle_total_step st draws h0]
  constructor
  · nlinarith
  · exact mul_nonneg hff0 hpos.le

/-- Witness for C8 on an all-positive-brightness sparkle state. -/
theorem sparkle_decay_witness :
    sparkleHalf.new_sparks = 0 ∧ 0 ≤ sparkleHalf.fade_factor ∧
      sparkleHalf.fade_factor < 1 ∧ 0 < Sparkle.totalBrightness sparkleHalf ∧
      (Sparkle.totalBrightness (Sparkle.step sparkleHalf []) <
          Sparkle.totalBrightness sparkleHalf ∧
        0 ≤ Sparkle.totalBrightness (Sparkle.step sparkleHalf [])) := by
  have hsum : Sparkle.totalBrightness sparkleHalf = 150 := by
    calc Sparkle.totalBrightness sparkleHalf
        = ∑ _i : Fin NUM_PIXELS, (1 / 2 : ℚ) := Finset.sum_congr rfl fun i _ => rfl
      _ = (Finset.univ : Finset (Fin NUM_PIXELS)).card • (1 / 2 : ℚ) := Finset.sum_const _
      _ = 150 := by
          rw [Finset.card_univ, Fintype.card_fin]
          norm_num [NUM_PIXELS, nsmul_eq_mul]
  have hpos : 0 < Sparkle.totalBrightness sparkleHalf := by rw [hsum]; norm_num
  refine ⟨rfl, by norm_num [sparkleHalf], by norm_num [sparkleHalf], hpos, ?_⟩
  exact sparkle_decay sparkleHalf [] rfl (by norm_num [sparkleHalf])
    (by norm_num [sparkleHalf]) hpos

/-- C9 counterexample: on a compositor constructed with n = 1 pixel, a
sparkle routine resolves to a frame of 300 pixels, not 1. -/
theorem resolve_length_counterexample :
    ((Lights.resolve powId [] RGBWColour.default 1 (.sparkle sparkleZero)).map
        fun pr => pr.2.length) ≠ .ok 1 := by
  intro hcontra
  rw [Lights.resolve] at hcontra
  rw [Sparkle.get_rgbw_array] at hcontra
  simp only [Except.map] at hcontra
  rw [List.length_ofFn] at hcontra
  norm_num [NUM_PIXELS] at hcontra

/-- C9 (amended): every successful resolve produces a frame whose length is
`routineLength`: the compositor's pixel count n for the constant variants
(3-tuple, 4-tuple, bare RGBW), the routine's own pixel count for a rainbow
sweep, and the module constant NUM_PIXELS = 300 for a sparkle field.  These
all equal n only when the routines' pixel counts match the compositor's, as
they do under the default construction (all 300). -/
theorem resolve_length (pw : ℚ → ℚ → ℚ) (draws : List (Fin NUM_PIXELS × ℚ))
    (cm : RGBWColour) (n : ℕ) (r r' : RoutineVal) (out : List RGBW)
    (h : Lights.resolve pw draws cm n r = .ok (r', out)) :
    out.length = routineLength n r := by
  cases r with
  | tup xs =>
    rcases xs with _ | ⟨a, _ | ⟨b, _ | ⟨c, _ | ⟨d, _ | ⟨e, tl⟩⟩⟩⟩⟩
    · exact Except.noConfusion h
    · exact Except.noConfusion h
    · exact Except.noConfusion h
    · simp only [Lights.resolve, Except.ok.injEq, Prod.mk.injEq] at h
      obtain ⟨h1, h2⟩ := h
      subst h2
      simp [routineLength]
    · simp only [Lights.resolve, Except.ok.injEq, Prod.mk.injEq] at h
      obtain ⟨h1, h2⟩ := h
      subst h2
      simp [routineLength]
    · exact Except.noConfusion h
  | rainbows st =>
    simp only [Lights.resolve, Except.ok.injEq, Prod.mk.injEq] at h
    obtain ⟨h1, h2⟩ := h
    subst h2
    simp [Rainbows.get_rgbw_array, Rainbows.step, routineLength]
  | sparkle st =>
    simp only [Lights.resolve, Except.ok.injEq, Prod.mk.injEq] at h
    obtain ⟨h1, h2⟩ := h
    subst h2
    simp only [Sparkle.get_rgbw_array, List.length_ofFn, routineLength]
  | rgbw c =>
    simp only [Lights.resolve, Except.ok.injEq, Prod.mk.injEq] at h
    obtain ⟨h1, h2⟩ := h
    subst h2
    simp [routineLength]

/-- Witness for C9 on a 7-pixel compositor resolving a constant RGBW. -/
theorem resolve_length_witness :
    Lights.resolve powId [] RGBWColour.default 7 (.rgbw ⟨1, 0, 0, 0⟩) =
        .ok (.rgbw ⟨1, 0, 0, 0⟩, List.replicate 7 ⟨1, 0, 0, 0⟩) ∧
      (List.replicate 7 (⟨1, 0, 0, 0⟩ : RGBW)).length =
        routineLength 7 (.rgbw ⟨1, 0, 0, 0⟩) :=
  ⟨rfl, resolve_length powId [] RGBWColour.default 7 _ _ _ rfl⟩

/-- C1 counterexample: on a 2-pixel compositor, select the constant
RGBW(1,0,0,0) and render once with fade_duration = 1 and elapsed exactly
1 second.  The frame computed by that single render call is all-zero — the
new entry still has weight 0 when the frame is blended, because the fade
step runs only after the frame is computed — and the zero pixel is not
(even approximately) RGBW(1,0,0,0). -/
theorem first_render_black_counterexample :
    Lights.show' powId noDraws
        (Lights.setRoutine (Lights.init RGBWColour.default 2 1 0) (.rgbw ⟨1, 0, 0, 0⟩)) 1 =
      .ok (⟨RGBWColour.default, 2, [(0, .rgbw ⟨1, 0, 0, 0⟩, 1)], some 0, 1, 1, 1⟩,
        some (List.replicate 2 ⟨0, 0, 0, 0⟩)) ∧
      (⟨0, 0, 0, 0⟩ : RGBW) ≠ ⟨1, 0, 0, 0⟩ := by
  constructor
  · norm_num [Lights.show', Lights.resolveAll, Lights.resolve, Lights.fadeRoutines,
      Lights.weights, Lights.setRoutine, Lights.init, pyZip, zipMinLen, pySum,
      RGBW.mul, RGBW.addRGBW, List.replicate, List.range_succ]
  · intro h
    have := congrArg RGBW.r h
    norm_num at this

/-- C1 (amended): selecting RGBW(1,0,0,0) on an empty compositor with
fade_duration = 1 and rendering once with elapsed = 1s outputs an all-zero
frame; that render raises the entry's weight to 1.0, so it is the second
render call whose output frame has every pixel equal to RGBW(1,0,0,0). -/
theorem select_then_render_full (pw : ℚ → ℚ → ℚ)
    (draws : ℕ → List (Fin NUM_PIXELS × ℚ)) (cm : RGBWColour) (n : ℕ) (t0 : ℚ) :
    Lights.show' pw draws
        (Lights.setRoutine (Lights.init cm n 1 t0) (.rgbw ⟨1, 0, 0, 0⟩)) (t0 + 1) =
      .ok (⟨cm, n, [(0, .rgbw ⟨1, 0, 0, 0⟩, 1)], some 0, 1, t0 + 1, 1⟩,
        some (List.replicate n ⟨0, 0, 0, 0⟩)) ∧
    Lights.show' pw draws
        ⟨cm, n, [(0, .rgbw ⟨1, 0, 0, 0⟩, 1)], some 0, 1, t0 + 1, 1⟩ (t0 + 2) =
      .ok (⟨cm, n, [(0, .rgbw ⟨1, 0, 0, 0⟩, 1)], some 0, 1, t0 + 2, 1⟩,
        some (List.replicate n ⟨1, 0, 0, 0⟩)) := by
  constructor
  · have hst : Lights.setRoutine (Lights.init cm n 1 t0) (.rgbw ⟨1, 0, 0, 0⟩) =
        ⟨cm, n, [(0, .rgbw ⟨1, 0, 0, 0⟩, 0)], some 0, 1, t0, 1⟩ := rfl
    rw [hst]
    have hw : Lights.weights ⟨cm, n, [(0, .rgbw ⟨1, 0, 0, 0⟩, 0)], some 0, 1, t0, 1⟩ = 1 := by
      norm_num [Lights.weights]
    have hra := resolveAll_single_rgbw pw draws cm n 1 0 0 0 ⟨1, 0, 0, 0⟩
    have hc : RGBW.mul ⟨1, 0, 0, 0⟩ ((0 : ℚ) / 1) = ⟨0, 0, 0, 0⟩ := by
      norm_num [RGBW.mul]
    rw [hc] at hra
    have hfr : Lights.fadeRoutines
        ⟨cm, n, [(0, .rgbw ⟨1, 0, 0, 0⟩, 0)], some 0, 1, t0, 1⟩ (t0 + 1) =
        ⟨cm, n, [(0, .rgbw ⟨1, 0, 0, 0⟩, 1)], some 0, 1, t0 + 1, 1⟩ := by
      simp only [Lights.fadeRoutines, List.filter_cons, List.filter_nil]
      norm_num [add_sub_cancel_left]
    simp only [Lights.show', List.isEmpty_cons, Bool.false_eq_true, if_false, hw, hra,
      List.isEmpty_cons, pyZip_map_pySum_singleton]
    rw [hfr]
  · have hw : Lights.weights ⟨cm, n, [(0, .rgbw ⟨1, 0, 0, 0⟩, 1)], some 0, 1, t0 + 1, 1⟩ = 1 := by
      norm_num [Lights.weights]
    have hra := resolveAll_single_rgbw pw draws cm n 1 1 0 0 ⟨1, 0, 0, 0⟩
    have hc : RGBW.mul ⟨1, 0, 0, 0⟩ ((1 : ℚ) / 1) = ⟨1, 0, 0, 0⟩ := by
      norm_num [RGBW.mul]
    rw [hc] at hra
    have hfr : Lights.fadeRoutines
        ⟨cm, n, [(0, .rgbw ⟨1, 0, 0, 0⟩, 1)], some 0, 1, t0 + 1, 1⟩ (t0 + 2) =
        ⟨cm, n, [(0, .rgbw ⟨1, 0, 0, 0⟩, 1)], some 0, 1, t0 + 2, 1⟩ := by
      simp only [Lights.fadeRoutines, List.filter_cons, List.filter_nil]
      have h2 : t0 + 2 - (t0 + 1) = (1 : ℚ) := by ring
      norm_num [h2]
    simp only [Lights.show', List.isEmpty_cons, Bool.false_eq_true, if_false, hw, hra,
      pyZip_map_pySum_singleton]
    rw [hfr]

/-- Witness for C3 at the 5-tuple (0, 0, 0, 0, 0). -/
theorem bad_tuple_errors_at_render_witness :
    ([(0 : ℚ), 0, 0, 0, 0].length ≠ 3) ∧ ([(0 : ℚ), 0, 0, 0, 0].length ≠ 4) ∧
      ((Lights.setRoutine (Lights.init RGBWColour.default 300 1 0)
          (.tup [0, 0, 0, 0, 0])).routines = [(0, .tup [0, 0, 0, 0, 0], 0)] ∧
        Lights.show' powId noDraws
            (Lights.setRoutine (Lights.init RGBWColour.default 300 1 0)
              (.tup [0, 0, 0, 0, 0])) 1 =
          .error (.badTuple [0, 0, 0, 0, 0])) := by
  refine ⟨by norm_num, by norm_num, ?_⟩
  exact bad_tuple_errors_at_render powId noDraws RGBWColour.default 300 1 0 1
    [0, 0, 0, 0, 0] (by norm_num) (by norm_num)
